import Mathlib

/-!
Shallow embedding of the metrics exporter in `task1_2.py`.

The program has two samplers over a Prometheus gauge registry:
* `collect_iostat_metrics` runs `iostat`, parses a CPU block (the line after
  the first line containing `%user`) and a device block (non-empty lines after
  a line containing `Device`), and sets labelled gauges;
* `collect_meminfo_metrics` reads `/proc/meminfo` and sets one dynamically
  created gauge per key.

Modelling choices:
* Python floats are modelled as `ℚ`; every numeral and arithmetic operation the
  program performs on the values in scope (parsing decimal literals,
  multiplying by 1024) is exact in binary64 for these magnitudes, so `ℚ` is a
  faithful value model for the properties proved here.
* The gauge registry is an association list from (gauge name, label value) to
  the current value; `regSet` is create-if-absent-then-set.
* External effects are inputs: the `iostat` stdout (or `none` when
  `subprocess.run` raises) and the `/proc/meminfo` contents (or `none` when
  `open`/`read` raises).
* A Python exception inside the guarded `try` body is `Except.error st` where
  `st` is the state at the raise point; the `except` clause at the function
  boundary turns it into a `(false, st)` result.
* `float()` is modelled by `parsePyFloat` on the finite decimal numerals of
  Python's float grammar (optional sign, digitparts with underscores, optional
  fraction and exponent), whose values are exact rationals; `pyFloatAccepts`
  models which strings `float()` accepts at all (the numerals plus the signed
  `inf`/`infinity`/`nan` words, and conservatively any string with non-ASCII
  or vertical-tab/form-feed characters), so `pyFloatAccepts s = false` is the
  model of `float(s)` raising `ValueError`.
-/

namespace Task12

/-- Python `s.split()` (no argument): split on runs of whitespace, no empty
fields. Auxiliary recursion over the character list, accumulating the current
field in reverse. -/
def splitWsAux : List Char → List Char → List (List Char)
  | [], acc => if acc.isEmpty then [] else [acc.reverse]
  | c :: cs, acc =>
    if c.isWhitespace then
      if acc.isEmpty then splitWsAux cs [] else acc.reverse :: splitWsAux cs []
    else splitWsAux cs (c :: acc)

/-- Python `s.split()` with no arguments. -/
def pySplit (s : String) : List String :=
  (splitWsAux s.data []).map String.mk

/-- Python `s.strip()`: drop leading and trailing whitespace. -/
def pyStrip (s : String) : String :=
  String.mk (((s.data.dropWhile Char.isWhitespace).reverse.dropWhile Char.isWhitespace).reverse)

/-- Substring test on character lists: does `needle` occur contiguously in
`hay`? -/
def listContains (needle : List Char) : List Char → Bool
  | [] => needle.isEmpty
  | c :: cs => needle.isPrefixOf (c :: cs) || listContains needle cs

/-- Python `pat in s` substring containment. -/
def strContains (s pat : String) : Bool :=
  listContains pat.data s.data

/-- Python `str.splitlines()` for `\n`-separated text (the program reads
`text=True` subprocess output, where newlines are normalised to `\n`).
Splits after each newline; a trailing newline produces no trailing empty
line. -/
def splitNl : List Char → List Char → List (List Char)
  | [], acc => [acc.reverse]
  | c :: cs, acc => if c = '\n' then acc.reverse :: splitNl cs [] else splitNl cs (c :: acc)

/-- Python `s.splitlines()` (for `\n` newlines). -/
def pySplitlines (s : String) : List String :=
  let parts := splitNl s.data []
  (if parts.getLastD [] = [] then parts.dropLast else parts).map String.mk

/-- Python `f.readlines()`: lines keep their trailing newline; a last line
without a newline is kept as is. -/
def readlinesAux : List Char → List Char → List String
  | [], acc => if acc.isEmpty then [] else [String.mk acc.reverse]
  | c :: cs, acc =>
    if c = '\n' then String.mk (acc.reverse ++ ['\n']) :: readlinesAux cs []
    else readlinesAux cs (c :: acc)

/-- Python `f.readlines()` on the whole file contents. -/
def pyReadlines (s : String) : List String :=
  readlinesAux s.data []

/-- Value of a list of decimal digit characters. -/
def digitsToNat (ds : List Char) : Nat :=
  ds.foldl (fun n c => n * 10 + (c.toNat - 48)) 0

/-- Continuation of a Python `digitpart` after its first digit:
`(('_')? digit)*`, where an underscore must sit between two digits. Returns
the digits consumed (underscores dropped) and the unconsumed remainder. -/
def digitpartCont : List Char → List Char × List Char
  | '_' :: c :: rest =>
    if c.isDigit then
      let p := digitpartCont rest
      (c :: p.1, p.2)
    else ([], '_' :: c :: rest)
  | c :: rest =>
    if c.isDigit then
      let p := digitpartCont rest
      (c :: p.1, p.2)
    else ([], c :: rest)
  | [] => ([], [])

/-- A Python `digitpart`: `digit (('_')? digit)*`. Returns its digits
(underscores dropped) and the remainder, or `none` when the input does not
start with a digit. -/
def parseDigitpart : List Char → Option (List Char × List Char)
  | c :: rest =>
    if c.isDigit then
      let p := digitpartCont rest
      some (c :: p.1, p.2)
    else none
  | [] => none

/-- The mantissa of a Python float literal:
`digitpart ['.' [digitpart]] | '.' digitpart`. Returns its rational value and
the remainder. -/
def parseMantissa (cs : List Char) : Option (ℚ × List Char) :=
  match parseDigitpart cs with
  | some (ip, rest) =>
    match rest with
    | '.' :: rest2 =>
      match parseDigitpart rest2 with
      | some (fp, rest3) =>
        some ((digitsToNat ip : ℚ) + (digitsToNat fp : ℚ) / (10 : ℚ) ^ fp.length, rest3)
      | none => some ((digitsToNat ip : ℚ), rest2)
    | _ => some ((digitsToNat ip : ℚ), rest)
  | none =>
    match cs with
    | '.' :: rest2 =>
      match parseDigitpart rest2 with
      | some (fp, rest3) =>
        some ((digitsToNat fp : ℚ) / (10 : ℚ) ^ fp.length, rest3)
      | none => none
    | _ => none

/-- The optional exponent of a Python float literal:
`(('e' | 'E') ['+' | '-'] digitpart)?`. Returns the signed decimal exponent
and the remainder; `(0, cs)` when no exponent marker is present, `none` when
a marker is present but malformed. -/
def parseExponent (cs : List Char) : Option (Int × List Char) :=
  match cs with
  | 'e' :: rest | 'E' :: rest =>
    match rest with
    | '+' :: rest2 =>
      match parseDigitpart rest2 with
      | some (ds, rest3) => some ((digitsToNat ds : Int), rest3)
      | none => none
    | '-' :: rest2 =>
      match parseDigitpart rest2 with
      | some (ds, rest3) => some (-(digitsToNat ds : Int), rest3)
      | none => none
    | _ =>
      match parseDigitpart rest with
      | some (ds, rest3) => some ((digitsToNat ds : Int), rest3)
      | none => none
  | _ => some (0, cs)

/-- An unsigned finite Python float numeral: mantissa and optional exponent
consuming the whole input. -/
def parseFinite (cs : List Char) : Option ℚ :=
  match parseMantissa cs with
  | none => none
  | some (m, rest) =>
    match parseExponent rest with
    | none => none
    | some (e, rest2) =>
      if rest2.isEmpty then
        some (if 0 ≤ e then m * (10 : ℚ) ^ e.toNat else m / (10 : ℚ) ^ (-e).toNat)
      else none

/-- Model of Python `float()` on the values it can produce exactly: strip
whitespace, then an optional sign and a finite decimal numeral (digitparts
with underscores, optional fraction, optional exponent). `none` means the
token is not a finite numeral — either `float()` raises `ValueError` there,
or the token is a special word (`inf`, `infinity`, `nan`) whose value has no
rational representation; `pyFloatAccepts` tells the two apart. Finite
decimal values are modelled exactly as rationals (binary64 rounding and
overflow to infinity lie below / beyond the regime the claims exercise). -/
def parsePyFloat (s : String) : Option ℚ :=
  match (pyStrip s).data with
  | '-' :: cs => (parseFinite cs).map (fun q => -q)
  | '+' :: cs => parseFinite cs
  | cs => parseFinite cs

/-- The special non-finite tokens `float()` accepts after the optional sign:
`inf`, `infinity`, `nan`, case-insensitive. -/
def isInfNanBody (cs : List Char) : Bool :=
  let l := cs.map Char.toLower
  l == "inf".data || l == "infinity".data || l == "nan".data

/-- Does Python `float()` accept the string (produce a value rather than
raise `ValueError`)? True for a finite numeral (`parsePyFloat`), for a
signed `inf`/`infinity`/`nan` word, and — conservatively — for any string
containing a non-ASCII character or a vertical tab or form feed, forms
(Unicode digits and extra whitespace) that `float()` may accept but the
ASCII model does not parse. Hence `pyFloatAccepts s = false` implies
`float(s)` raises. -/
def pyFloatAccepts (s : String) : Bool :=
  (parsePyFloat s).isSome ||
  (match (pyStrip s).data with
    | '+' :: r => isInfNanBody r
    | '-' :: r => isInfNanBody r
    | r => isInfNanBody r) ||
  s.data.any (fun c => 128 ≤ c.toNat || c == '\x0b' || c == '\x0c')

/-- A gauge instance is identified by (gauge name, label value); unlabelled
gauges use the empty label. -/
abbrev GKey := String × String

/-- The Prometheus registry: current value of every gauge instance that has
ever been set. -/
abbrev Registry := List (GKey × ℚ)

/-- Current value of a gauge instance, `none` if never set. -/
def regGet (r : Registry) (k : GKey) : Option ℚ :=
  match r with
  | [] => none
  | (k', v) :: t => if k' = k then some v else regGet t k

/-- `gauge.labels(l).set(v)`: overwrite if present, append otherwise. -/
def regSet (r : Registry) (k : GKey) (v : ℚ) : Registry :=
  match r with
  | [] => [(k, v)]
  | (k', v') :: t => if k' = k then (k', v) :: t else (k', v') :: regSet t k v

/-- Process state: the gauge registry plus the `meminfo_gauges` dictionary of
already created meminfo gauge names. -/
structure MetricsState where
  registry : Registry
  meminfo_gauges : List String
deriving DecidableEq

/-- The state at interpreter startup: no gauge instance set, no meminfo gauge
created. -/
def initState : MetricsState := ⟨[], []⟩

/-- A single registry effect: set a gauge instance, or create a meminfo gauge
if absent (`if metric_name not in meminfo_gauges`). -/
inductive RegOp where
  | set : GKey → ℚ → RegOp
  | ensure : String → RegOp
deriving DecidableEq

/-- Apply one registry effect to the state. -/
def applyOp (st : MetricsState) : RegOp → MetricsState
  | .set k v => { st with registry := regSet st.registry k v }
  | .ensure n =>
    if n ∈ st.meminfo_gauges then st
    else { st with meminfo_gauges := st.meminfo_gauges ++ [n] }

/-- Apply a sequence of registry effects in order. -/
def applyOps (st : MetricsState) (ops : List RegOp) : MetricsState :=
  ops.foldl applyOp st

/-- The six CPU modes with the field index each one reads, in statement order:
`cpu_avg_percent.labels(mode).set(float(cpu_vals[i]))`. -/
def cpuFieldList : List (String × Nat) :=
  [("user", 0), ("nice", 1), ("system", 2), ("iowait", 3), ("steal", 4), ("idle", 5)]

/-- The six CPU set statements, executed in order; `float()` failure raises
with the partially updated state (earlier statements already ran). -/
def setCpuFields (st : MetricsState) (cpu_vals : List String) :
    List (String × Nat) → Except MetricsState MetricsState
  | [] => .ok st
  | (mode, i) :: rest =>
    match parsePyFloat (cpu_vals.getD i "") with
    | none => .error st
    | some v => setCpuFields (applyOp st (.set ("cpu_avg_percent", mode) v)) cpu_vals rest

/-- The CPU scan: `for i, line in enumerate(lines)`, acting on the first line
that contains `%user` and has a following line, then `break`. -/
def cpuLoop (st : MetricsState) : List String → Except MetricsState MetricsState
  | [] => .ok st
  | line :: rest =>
    if strContains line "%user" && !rest.isEmpty then
      let cpu_vals := pySplit (rest.headD "")
      if 6 ≤ cpu_vals.length then setCpuFields st cpu_vals cpuFieldList
      else .ok st
    else cpuLoop st rest

/-- The five gauge sets performed for one device record, in statement order. -/
def deviceOpList (device : String) (tps kb_read_sec kb_write_sec : ℚ) : List RegOp :=
  [.set ("io_tps", device) tps,
   .set ("io_read_rate", device) kb_read_sec,
   .set ("io_write_rate", device) kb_write_sec,
   .set ("io_read_bytes", device) (kb_read_sec * 1024),
   .set ("io_write_bytes", device) (kb_write_sec * 1024)]

/-- Update the five device gauges for one record. -/
def setDevice (st : MetricsState) (device : String) (tps kb_read_sec kb_write_sec : ℚ) :
    MetricsState :=
  applyOps st (deviceOpList device tps kb_read_sec kb_write_sec)

/-- The device scan: `device_section` starts false, is set by any line
containing `Device` (which is itself skipped); afterwards every non-empty line
with at least four fields is a device record. The three `float()` calls run
before any gauge set, so a parse failure raises with no partial update for
that record. Returns the final state and flag. -/
def deviceLoop (st : MetricsState) (flag : Bool) :
    List String → Except MetricsState (MetricsState × Bool)
  | [] => .ok (st, flag)
  | line :: rest =>
    if strContains line "Device" then deviceLoop st true rest
    else if flag && (pyStrip line != "") then
      let parts := pySplit line
      if 4 ≤ parts.length then
        match parsePyFloat (parts.getD 1 "") with
        | none => .error st
        | some tps =>
          match parsePyFloat (parts.getD 2 "") with
          | none => .error st
          | some kb_read_sec =>
            match parsePyFloat (parts.getD 3 "") with
            | none => .error st
            | some kb_write_sec =>
              deviceLoop (setDevice st (parts.getD 0 "") tps kb_read_sec kb_write_sec) flag rest
      else deviceLoop st flag rest
    else deviceLoop st flag rest

/-- Body of `collect_iostat_metrics` after the subprocess call succeeded:
CPU scan, then device scan; an exception in either is caught at the function
boundary as a `false` result with the state at the raise point. -/
def collect_iostat_lines (lines : List String) (st : MetricsState) : Bool × MetricsState :=
  match cpuLoop st lines with
  | .error st1 => (false, st1)
  | .ok st1 =>
    match deviceLoop st1 false lines with
    | .error st2 => (false, st2)
    | .ok (st2, _) => (true, st2)

/-- `collect_iostat_metrics`: the subprocess result is the input — `some out`
when `iostat` ran and exited 0 with stdout `out`, `none` when `subprocess.run`
raised (spawn failure or non-zero exit under `check=True`). -/
def collect_iostat_metrics (cmd : Option String) (st : MetricsState) : Bool × MetricsState :=
  match cmd with
  | none => (false, st)
  | some out => collect_iostat_lines (pySplitlines out) st

/-- Split a character list at the first occurrence of `c`
(Python `line.split(c, 1)`); `none` when `c` does not occur
(Python `c in line` is false). -/
def splitFirst (c : Char) : List Char → Option (List Char × List Char)
  | [] => none
  | x :: xs =>
    if x = c then some ([], xs)
    else (splitFirst c xs).map (fun p => (x :: p.1, p.2))

/-- First maximal run of decimal digits (Python `re.search(r'(\d+)', s)`),
`none` when the string has no digit. -/
def firstDigitRun : List Char → Option (List Char)
  | [] => none
  | c :: cs => if c.isDigit then some (c :: cs.takeWhile Char.isDigit) else firstDigitRun cs

/-- Python `key.lower()` (ASCII case mapping, as `Char.toLower`). -/
def pyLower (s : String) : String :=
  String.mk (s.data.map Char.toLower)

/-- `re.sub(r'[^a-zA-Z0-9_]', '_', s)`: replace every character outside
letters, digits and underscore by an underscore. -/
def sanitize_key (s : String) : String :=
  String.mk (s.data.map (fun c => if c.isAlphanum || c == '_' then c else '_'))

/-- `f"meminfo_{sanitized_key}_bytes"` for a raw meminfo key. -/
def meminfo_metric_name (key : String) : String :=
  "meminfo_" ++ sanitize_key (pyLower key) ++ "_bytes"

/-- The registry effects of one meminfo line: nothing for a line without a
colon or without a digit in the value part; otherwise create the gauge if
absent and set it to the parsed kilobyte value times 1024. -/
def memLineOps (line : String) : List RegOp :=
  match splitFirst ':' line.data with
  | none => []
  | some (kcs, vcs) =>
    let key := pyStrip (String.mk kcs)
    match firstDigitRun (pyStrip (String.mk vcs)).data with
    | none => []
    | some run =>
      let name := meminfo_metric_name key
      [.ensure name, .set (name, "") ((digitsToNat run : ℚ) * 1024)]

/-- The metric name one meminfo line would touch, `none` when the line is
skipped. -/
def memLineName (line : String) : Option String :=
  match splitFirst ':' line.data with
  | none => none
  | some (kcs, vcs) =>
    match firstDigitRun (pyStrip (String.mk vcs)).data with
    | none => none
    | some _ => some (meminfo_metric_name (pyStrip (String.mk kcs)))

/-- Process one line of `/proc/meminfo`. -/
def meminfoLine (st : MetricsState) (line : String) : MetricsState :=
  applyOps st (memLineOps line)

/-- `collect_meminfo_metrics`: the file contents are the input — `some s` when
reading `/proc/meminfo` succeeded, `none` when `open`/`read` raised. No line
can raise (the digit run always converts), so a successful read always returns
`True`. -/
def collect_meminfo_metrics (file : Option String) (st : MetricsState) : Bool × MetricsState :=
  match file with
  | none => (false, st)
  | some content => (true, (pyReadlines content).foldl meminfoLine st)

/-! ### Generic lemmas about the registry and effect sequences -/

theorem regGet_regSet (r : Registry) (k k' : GKey) (v : ℚ) :
    regGet (regSet r k v) k' = if k = k' then some v else regGet r k' := by
  induction r with
  | nil => rfl
  | cons p t ih =>
    obtain ⟨pk, pv⟩ := p
    simp only [regSet]
    by_cases h1 : pk = k
    · subst h1
      rw [if_pos rfl]
      by_cases h2 : pk = k' <;> simp [regGet, h2]
    · rw [if_neg h1]
      by_cases h2 : pk = k'
      · subst h2
        have h3 : ¬ k = pk := fun hh => h1 hh.symm
        simp [regGet, h3]
      · simp [regGet, h2, ih]

/-- The value the last `.set` on key `k` in `ops` writes, if any. -/
def opsLastVal (k : GKey) : List RegOp → Option ℚ
  | [] => none
  | .set k' v :: rest => (opsLastVal k rest).or (if k' = k then some v else none)
  | .ensure _ :: rest => opsLastVal k rest

/-- The names `ops` would create as meminfo gauges, in order. -/
def opsEnsures : List RegOp → List String
  | [] => []
  | .set _ _ :: rest => opsEnsures rest
  | .ensure n :: rest => n :: opsEnsures rest

theorem applyOp_ensure_registry (st : MetricsState) (n : String) :
    (applyOp st (.ensure n)).registry = st.registry := by
  show (if n ∈ st.meminfo_gauges then st
    else { st with meminfo_gauges := st.meminfo_gauges ++ [n] }).registry = st.registry
  split <;> rfl

theorem applyOp_set_gauges (st : MetricsState) (k : GKey) (v : ℚ) :
    (applyOp st (.set k v)).meminfo_gauges = st.meminfo_gauges := rfl

theorem applyOp_ensure_mem (st : MetricsState) (n x : String) :
    x ∈ (applyOp st (.ensure n)).meminfo_gauges ↔ x = n ∨ x ∈ st.meminfo_gauges := by
  show x ∈ (if n ∈ st.meminfo_gauges then st
    else { st with meminfo_gauges := st.meminfo_gauges ++ [n] }).meminfo_gauges ↔ _
  split
  · rename_i h
    constructor
    · exact Or.inr
    · rintro (rfl | hx)
      · exact h
      · exact hx
  · simp [List.mem_append]
    tauto

theorem applyOps_append (st : MetricsState) (a b : List RegOp) :
    applyOps st (a ++ b) = applyOps (applyOps st a) b := by
  simp [applyOps]

theorem regGet_applyOps (st : MetricsState) (ops : List RegOp) (k : GKey) :
    regGet (applyOps st ops).registry k = (opsLastVal k ops).or (regGet st.registry k) := by
  induction ops generalizing st with
  | nil => simp [applyOps, opsLastVal]
  | cons op rest ih =>
    have hstep : applyOps st (op :: rest) = applyOps (applyOp st op) rest := rfl
    rw [hstep, ih]
    cases op with
    | set k' v =>
      have hreg : (applyOp st (.set k' v)).registry = regSet st.registry k' v := rfl
      rw [hreg, regGet_regSet]
      simp only [opsLastVal, Option.or_assoc]
      cases hl : opsLastVal k rest <;> by_cases hk : k' = k <;> simp [hl, hk]
    | ensure n =>
      simp [opsLastVal, applyOp_ensure_registry]

theorem mem_gauges_applyOps (st : MetricsState) (ops : List RegOp) (x : String) :
    x ∈ (applyOps st ops).meminfo_gauges ↔ x ∈ opsEnsures ops ∨ x ∈ st.meminfo_gauges := by
  induction ops generalizing st with
  | nil => simp [applyOps, opsEnsures]
  | cons op rest ih =>
    have hstep : applyOps st (op :: rest) = applyOps (applyOp st op) rest := rfl
    rw [hstep, ih]
    cases op with
    | set k v => simp [opsEnsures, applyOp_set_gauges]
    | ensure n =>
      simp only [opsEnsures, applyOp_ensure_mem, List.mem_cons]
      tauto

theorem regGet_applyOps_idem (st : MetricsState) (ops : List RegOp) (k : GKey) :
    regGet (applyOps (applyOps st ops) ops).registry k = regGet (applyOps st ops).registry k := by
  rw [regGet_applyOps, regGet_applyOps]
  cases hlast : opsLastVal k ops <;> simp

theorem mem_gauges_applyOps_idem (st : MetricsState) (ops : List RegOp) (x : String) :
    x ∈ (applyOps (applyOps st ops) ops).meminfo_gauges ↔
      x ∈ (applyOps st ops).meminfo_gauges := by
  rw [mem_gauges_applyOps, mem_gauges_applyOps]
  tauto

theorem opsLastVal_eq_none (ops : List RegOp) (k : GKey) :
    (∀ op ∈ ops, ∀ v, op ≠ .set k v) → opsLastVal k ops = none := by
  induction ops with
  | nil => intro _; rfl
  | cons op rest ih =>
    intro h
    have hrest : opsLastVal k rest = none :=
      ih (fun o ho v => h o (List.mem_cons_of_mem _ ho) v)
    cases op with
    | set k' v =>
      have hk : k' ≠ k := by
        intro hk
        exact h _ (List.mem_cons_self _ _) v (by rw [hk])
      simp [opsLastVal, hrest, hk]
    | ensure n => simp [opsLastVal, hrest]

theorem regGet_applyOps_frame (st : MetricsState) (ops : List RegOp) (k : GKey)
    (h : ∀ op ∈ ops, ∀ v, op ≠ .set k v) :
    regGet (applyOps st ops).registry k = regGet st.registry k := by
  rw [regGet_applyOps, opsLastVal_eq_none ops k h]
  rfl

/-! ### Effect traces of the samplers

Each sampler's registry effects are a function of its external input alone;
the lemmas below factor the samplers through those traces. -/

/-- Effects of the six CPU set statements: the ops until the first `float()`
failure, and whether all six parsed. -/
def cpuFieldOps (cpu_vals : List String) : List (String × Nat) → List RegOp × Bool
  | [] => ([], true)
  | (mode, i) :: rest =>
    match parsePyFloat (cpu_vals.getD i "") with
    | none => ([], false)
    | some v =>
      let p := cpuFieldOps cpu_vals rest
      (RegOp.set ("cpu_avg_percent", mode) v :: p.1, p.2)

/-- Effects of the CPU scan. -/
def cpuTrace : List String → List RegOp × Bool
  | [] => ([], true)
  | line :: rest =>
    if strContains line "%user" && !rest.isEmpty then
      let cpu_vals := pySplit (rest.headD "")
      if 6 ≤ cpu_vals.length then cpuFieldOps cpu_vals cpuFieldList
      else ([], true)
    else cpuTrace rest

theorem setCpuFields_eq (vals : List String) (fl : List (String × Nat)) (st : MetricsState) :
    setCpuFields st vals fl =
      if (cpuFieldOps vals fl).2 then .ok (applyOps st (cpuFieldOps vals fl).1)
      else .error (applyOps st (cpuFieldOps vals fl).1) := by
  induction fl generalizing st with
  | nil => rfl
  | cons mi rest ih =>
    obtain ⟨mode, i⟩ := mi
    simp only [setCpuFields, cpuFieldOps]
    cases hp : parsePyFloat (vals.getD i "") with
    | none => simp [applyOps]
    | some v =>
      dsimp only
      rw [ih]
      cases (cpuFieldOps vals rest).2 <;> simp [applyOps]

theorem cpuLoop_eq (lines : List String) (st : MetricsState) :
    cpuLoop st lines =
      if (cpuTrace lines).2 then .ok (applyOps st (cpuTrace lines).1)
      else .error (applyOps st (cpuTrace lines).1) := by
  induction lines generalizing st with
  | nil => rfl
  | cons line rest ih =>
    simp only [cpuLoop, cpuTrace]
    cases hc : (strContains line "%user" && !rest.isEmpty)
    · simp only [hc, Bool.false_eq_true, if_false]
      exact ih st
    · simp only [hc, eq_self_iff_true, if_true]
      by_cases h6 : 6 ≤ (pySplit (rest.headD "")).length
      · simp only [if_pos h6]
        exact setCpuFields_eq _ _ _
      · simp only [if_neg h6]
        simp [applyOps]

/-- Effects of the device scan. -/
def devTrace (flag : Bool) : List String → List RegOp × Bool
  | [] => ([], true)
  | line :: rest =>
    if strContains line "Device" then devTrace true rest
    else if flag && (pyStrip line != "") then
      let parts := pySplit line
      if 4 ≤ parts.length then
        match parsePyFloat (parts.getD 1 "") with
        | none => ([], false)
        | some tps =>
          match parsePyFloat (parts.getD 2 "") with
          | none => ([], false)
          | some kb_read_sec =>
            match parsePyFloat (parts.getD 3 "") with
            | none => ([], false)
            | some kb_write_sec =>
              let p := devTrace flag rest
              (deviceOpList (parts.getD 0 "") tps kb_read_sec kb_write_sec ++ p.1, p.2)
      else devTrace flag rest
    else devTrace flag rest

/-- Final value of the `device_section` flag after the device scan. -/
def devFlag (flag : Bool) : List String → Bool
  | [] => flag
  | line :: rest => if strContains line "Device" then devFlag true rest else devFlag flag rest

theorem deviceLoop_eq (lines : List String) (flag : Bool) (st : MetricsState) :
    deviceLoop st flag lines =
      if (devTrace flag lines).2 then
        .ok (applyOps st (devTrace flag lines).1, devFlag flag lines)
      else .error (applyOps st (devTrace flag lines).1) := by
  induction lines generalizing st flag with
  | nil => rfl
  | cons line rest ih =>
    simp only [deviceLoop, devTrace, devFlag]
    cases hd : strContains line "Device"
    · cases hf : (flag && (pyStrip line != ""))
      · simp [hd, hf, ih]
      · by_cases h4 : 4 ≤ (pySplit line).length
        · cases hp1 : parsePyFloat ((pySplit line).getD 1 "") with
          | none => simp [hd, hf, h4, hp1, applyOps]
          | some tps =>
            cases hp2 : parsePyFloat ((pySplit line).getD 2 "") with
            | none => simp [hd, hf, h4, hp1, hp2, applyOps]
            | some kbr =>
              cases hp3 : parsePyFloat ((pySplit line).getD 3 "") with
              | none => simp [hd, hf, h4, hp1, hp2, hp3, applyOps]
              | some kbw =>
                simp only [hd, hf, h4, hp1, hp2, hp3, if_true, if_false, Bool.false_eq_true,
                  setDevice, ih, applyOps_append]
        · simp [hd, hf, h4, ih]
    · simp [hd, ih]

/-- Effects and result of the whole iostat parse: CPU scan, then (if the CPU
scan did not raise) the device scan starting with the flag down. -/
def iostatTrace (lines : List String) : List RegOp × Bool :=
  if (cpuTrace lines).2 then
    ((cpuTrace lines).1 ++ (devTrace false lines).1, (devTrace false lines).2)
  else ((cpuTrace lines).1, false)

theorem collect_iostat_lines_eq (lines : List String) (st : MetricsState) :
    collect_iostat_lines lines st = ((iostatTrace lines).2, applyOps st (iostatTrace lines).1) := by
  simp only [collect_iostat_lines, cpuLoop_eq, deviceLoop_eq, iostatTrace]
  cases hc : (cpuTrace lines).2 <;> cases hd : (devTrace false lines).2 <;>
    simp [applyOps_append]

/-- Effects of the meminfo parse over a list of lines. -/
def memOps : List String → List RegOp
  | [] => []
  | l :: rest => memLineOps l ++ memOps rest

theorem memFold_eq (lines : List String) (st : MetricsState) :
    lines.foldl meminfoLine st = applyOps st (memOps lines) := by
  induction lines generalizing st with
  | nil => rfl
  | cons l rest ih => simp [memOps, applyOps_append, meminfoLine, ih]

theorem collect_meminfo_metrics_eq (content : String) (st : MetricsState) :
    collect_meminfo_metrics (some content) st =
      (true, applyOps st (memOps (pyReadlines content))) := by
  simp [collect_meminfo_metrics, memFold_eq]

/-! ### Which keys each phase writes -/

/-- Gauge names of the five device metrics. -/
def ioNames : List String :=
  ["io_tps", "io_read_rate", "io_write_rate", "io_read_bytes", "io_write_bytes"]

theorem cpuFieldOps_keys (vals : List String) (fl : List (String × Nat)) :
    ∀ op ∈ (cpuFieldOps vals fl).1, ∃ m v, op = .set ("cpu_avg_percent", m) v := by
  induction fl with
  | nil => intro op h; simp [cpuFieldOps] at h
  | cons mi rest ih =>
    obtain ⟨mode, i⟩ := mi
    simp only [cpuFieldOps]
    cases hp : parsePyFloat (vals.getD i "") with
    | none => intro op h; simp at h
    | some v =>
      intro op h
      dsimp at h
      rcases List.mem_cons.mp h with rfl | hmem
      · exact ⟨mode, v, rfl⟩
      · exact ih op hmem

theorem cpuTrace_keys (lines : List String) :
    ∀ op ∈ (cpuTrace lines).1, ∃ m v, op = .set ("cpu_avg_percent", m) v := by
  induction lines with
  | nil => intro op h; simp [cpuTrace] at h
  | cons line rest ih =>
    simp only [cpuTrace]
    cases hc : (strContains line "%user" && !rest.isEmpty)
    · simp only [Bool.false_eq_true, if_false]
      exact ih
    · simp only [eq_self_iff_true, if_true]
      by_cases h6 : 6 ≤ (pySplit (rest.headD "")).length
      · simp only [if_pos h6]
        exact cpuFieldOps_keys _ _
      · simp only [if_neg h6]
        intro op h; simp at h

theorem deviceOpList_keys (dev : String) (t r w : ℚ) :
    ∀ op ∈ deviceOpList dev t r w, ∃ n v, op = .set (n, dev) v ∧ n ∈ ioNames := by
  intro op h
  simp only [deviceOpList, List.mem_cons, List.mem_singleton] at h
  rcases h with rfl | rfl | rfl | rfl | rfl | h
  · exact ⟨"io_tps", t, rfl, by simp [ioNames]⟩
  · exact ⟨"io_read_rate", r, rfl, by simp [ioNames]⟩
  · exact ⟨"io_write_rate", w, rfl, by simp [ioNames]⟩
  · exact ⟨"io_read_bytes", r * 1024, rfl, by simp [ioNames]⟩
  · exact ⟨"io_write_bytes", w * 1024, rfl, by simp [ioNames]⟩
  · simp at h

theorem devTrace_keys (lines : List String) (flag : Bool) :
    ∀ op ∈ (devTrace flag lines).1, ∃ n d v, op = .set (n, d) v ∧ n ∈ ioNames := by
  induction lines generalizing flag with
  | nil => intro op h; simp [devTrace] at h
  | cons line rest ih =>
    simp only [devTrace]
    cases hd : strContains line "Device"
    · simp only [Bool.false_eq_true, if_false]
      cases hf : (flag && (pyStrip line != ""))
      · simp only [Bool.false_eq_true, if_false]
        exact ih flag
      · simp only [eq_self_iff_true, if_true]
        by_cases h4 : 4 ≤ (pySplit line).length
        · simp only [if_pos h4]
          cases hp1 : parsePyFloat ((pySplit line).getD 1 "") with
          | none => intro op h; simp at h
          | some tps =>
            cases hp2 : parsePyFloat ((pySplit line).getD 2 "") with
            | none => intro op h; simp at h
            | some kbr =>
              cases hp3 : parsePyFloat ((pySplit line).getD 3 "") with
              | none => intro op h; simp at h
              | some kbw =>
                intro op h
                dsimp at h
                rcases List.mem_append.mp h with hL | hR
                · obtain ⟨n, v, hop, hn⟩ := deviceOpList_keys _ _ _ _ op hL
                  exact ⟨n, _, v, hop, hn⟩
                · exact ih flag op hR
        · simp only [if_neg h4]
          exact ih flag
    · simp only [eq_self_iff_true, if_true]
      exact ih true

theorem opsEnsures_append (a b : List RegOp) :
    opsEnsures (a ++ b) = opsEnsures a ++ opsEnsures b := by
  induction a with
  | nil => rfl
  | cons op rest ih => cases op <;> simp [opsEnsures, ih]

/-- A parsed meminfo line's effects: gauge creation then set, both on the
derived metric name. -/
theorem memLineOps_of_parse (l : String) (kcs vcs run : List Char)
    (hsplit : splitFirst ':' l.data = some (kcs, vcs))
    (hrun : firstDigitRun (pyStrip (String.mk vcs)).data = some run) :
    memLineOps l = [.ensure (meminfo_metric_name (pyStrip (String.mk kcs))),
      .set (meminfo_metric_name (pyStrip (String.mk kcs)), "")
        ((digitsToNat run : ℚ) * 1024)] := by
  unfold memLineOps
  rw [hsplit]
  dsimp only
  rw [hrun]

theorem memLineName_of_parse (l : String) (kcs vcs run : List Char)
    (hsplit : splitFirst ':' l.data = some (kcs, vcs))
    (hrun : firstDigitRun (pyStrip (String.mk vcs)).data = some run) :
    memLineName l = some (meminfo_metric_name (pyStrip (String.mk kcs))) := by
  unfold memLineName
  rw [hsplit]
  dsimp only
  rw [hrun]

/-- A meminfo line either has no effect or creates-and-sets the single metric
name `memLineName` reports. -/
theorem memLineOps_shape (l : String) :
    memLineOps l = [] ∨
      ∃ n v, memLineName l = some n ∧ memLineOps l = [.ensure n, .set (n, "") v] := by
  unfold memLineOps memLineName
  cases hsplit : splitFirst ':' l.data with
  | none => exact Or.inl rfl
  | some p =>
    obtain ⟨kcs, vcs⟩ := p
    dsimp only
    cases hrun : firstDigitRun (pyStrip (String.mk vcs)).data with
    | none => exact Or.inl rfl
    | some run =>
      exact Or.inr ⟨meminfo_metric_name (pyStrip (String.mk kcs)),
        (digitsToNat run : ℚ) * 1024, rfl, rfl⟩

/-- Lines that do not map to metric name `name` neither set nor create it. -/
theorem memOps_frame (lines : List String) (name : String) :
    (∀ l ∈ lines, memLineName l ≠ some name) →
      (∀ op ∈ memOps lines, ∀ v, op ≠ .set (name, "") v) ∧
        name ∉ opsEnsures (memOps lines) := by
  induction lines with
  | nil => intro _; exact ⟨fun op h => by simp [memOps] at h, by simp [memOps, opsEnsures]⟩
  | cons l rest ih =>
    intro h
    obtain ⟨ih1, ih2⟩ := ih (fun x hx => h x (List.mem_cons_of_mem _ hx))
    have hl := h l (List.mem_cons_self _ _)
    have hline : (∀ op ∈ memLineOps l, ∀ v, op ≠ .set (name, "") v) ∧
        name ∉ opsEnsures (memLineOps l) := by
      rcases memLineOps_shape l with hemp | ⟨n, v, hn, hops⟩
      · rw [hemp]
        exact ⟨fun op hop => by simp at hop, by simp [opsEnsures]⟩
      · have hne : n ≠ name := fun hh => hl (hh ▸ hn)
        rw [hops]
        constructor
        · intro op hop w
          rcases List.mem_cons.mp hop with rfl | hop2
          · simp
          · rcases List.mem_cons.mp hop2 with rfl | hop3
            · simp [hne]
            · simp at hop3
        · simp [opsEnsures, Ne.symm hne]
    constructor
    · intro op hop v
      rw [memOps] at hop
      rcases List.mem_append.mp hop with hA | hB
      · exact hline.1 op hA v
      · exact ih1 op hB v
    · rw [memOps, opsEnsures_append]
      intro hmem
      rcases List.mem_append.mp hmem with hA | hB
      · exact hline.2 hA
      · exact ih2 hB

/-! ### Structural lemmas on the scans -/

theorem cpuLoop_skip (pre rest : List String) (st : MetricsState) :
    (∀ l ∈ pre, strContains l "%user" = false) →
      cpuLoop st (pre ++ rest) = cpuLoop st rest := by
  induction pre with
  | nil => intro _; rfl
  | cons l t ih =>
    intro h
    have hl := h l (List.mem_cons_self _ _)
    simp only [List.cons_append, cpuLoop, hl, Bool.false_and, Bool.false_eq_true, if_false]
    exact ih (fun x hx => h x (List.mem_cons_of_mem _ hx))

theorem cpuLoop_no_user (lines : List String) (st : MetricsState) :
    (∀ l ∈ lines, strContains l "%user" = false) → cpuLoop st lines = .ok st := by
  intro h
  have := cpuLoop_skip lines [] st h
  rw [List.append_nil] at this
  rw [this]
  rfl

theorem deviceLoop_append (xs ys : List String) (flag : Bool) (st : MetricsState) :
    deviceLoop st flag (xs ++ ys) =
      match deviceLoop st flag xs with
      | .error e => .error e
      | .ok (st', f') => deviceLoop st' f' ys := by
  induction xs generalizing st flag with
  | nil => rfl
  | cons line rest ih =>
    simp only [List.cons_append, deviceLoop]
    cases hd : strContains line "Device"
    · simp only [Bool.false_eq_true, if_false]
      cases hf : (flag && (pyStrip line != ""))
      · simp only [Bool.false_eq_true, if_false]
        exact ih _ _
      · simp only [eq_self_iff_true, if_true]
        by_cases h4 : 4 ≤ (pySplit line).length
        · simp only [if_pos h4]
          cases hp1 : parsePyFloat ((pySplit line).getD 1 "") with
          | none => rfl
          | some tps =>
            cases hp2 : parsePyFloat ((pySplit line).getD 2 "") with
            | none => rfl
            | some kbr =>
              cases hp3 : parsePyFloat ((pySplit line).getD 3 "") with
              | none => rfl
              | some kbw => exact ih _ _
        · simp only [if_neg h4]
          exact ih _ _
    · simp only [eq_self_iff_true, if_true]
      exact ih _ _

theorem deviceLoop_no_device (lines : List String) (st : MetricsState) :
    (∀ l ∈ lines, strContains l "Device" = false) →
      deviceLoop st false lines = .ok (st, false) := by
  induction lines with
  | nil => intro _; rfl
  | cons l t ih =>
    intro h
    have hl := h l (List.mem_cons_self _ _)
    simp only [deviceLoop, hl, Bool.false_eq_true, if_false, Bool.false_and]
    exact ih (fun x hx => h x (List.mem_cons_of_mem _ hx))

theorem devTrace_no_device (lines : List String) :
    (∀ l ∈ lines, strContains l "Device" = false) →
      devTrace false lines = ([], true) := by
  induction lines with
  | nil => intro _; rfl
  | cons l t ih =>
    intro h
    have hl := h l (List.mem_cons_self _ _)
    simp only [devTrace, hl, Bool.false_eq_true, if_false, Bool.false_and]
    exact ih (fun x hx => h x (List.mem_cons_of_mem _ hx))

theorem memOps_append (a b : List String) : memOps (a ++ b) = memOps a ++ memOps b := by
  induction a with
  | nil => rfl
  | cons l t ih => simp [memOps, ih]

/-- The ASCII lowercase image of a character is never an uppercase letter. -/
theorem isUpper_toLower (c : Char) : (Char.toLower c).isUpper = false := by
  dsimp only [Char.toLower]
  by_cases h : c.toNat ≥ 65 ∧ c.toNat ≤ 90
  · rw [if_pos h]
    obtain ⟨h1, h2⟩ := h
    have h1' : 65 ≤ c.toNat := h1
    generalize hg : c.toNat = n at h1' h2
    interval_cases n <;> decide
  · rw [if_neg h]
    have h65 : ((65 : UInt32) ≤ c.val) ↔ (65 ≤ c.toNat) := by
      rw [UInt32.le_def, BitVec.le_def]; rfl
    have h90 : (c.val ≤ (90 : UInt32)) ↔ (c.toNat ≤ 90) := by
      rw [UInt32.le_def, BitVec.le_def]; rfl
    rcases not_and_or.mp h with h1 | h2
    · have : ¬ ((65 : UInt32) ≤ c.val) := fun hh => h1 (h65.mp hh)
      simp [Char.isUpper, this]
    · have : ¬ (c.val ≤ (90 : UInt32)) := fun hh => h2 (h90.mp hh)
      simp [Char.isUpper, this]

/-! ### The claims -/

/-- C4: both samplers return a boolean and never raise past their boundary;
when the external command or file read fails they return `False` and leave
every previously set metric value and every created gauge unchanged. The
failure input is `none`, and the result state is exactly the input state. -/
theorem samplers_fail_safe (st : MetricsState) :
    collect_iostat_metrics none st = (false, st) ∧
    collect_meminfo_metrics none st = (false, st) ∧
    (∀ k, regGet (collect_iostat_metrics none st).2.registry k = regGet st.registry k) ∧
    (∀ k, regGet (collect_meminfo_metrics none st).2.registry k = regGet st.registry k) :=
  ⟨rfl, rfl, fun _ => rfl, fun _ => rfl⟩

/-- C5: with the same external input, running a sampler a second time changes
no metric value, no created-gauge set, and no returned boolean (idempotence).
-/
theorem samplers_idempotent (input : Option String) (st : MetricsState) :
    ((collect_iostat_metrics input ((collect_iostat_metrics input st).2)).1 =
        (collect_iostat_metrics input st).1 ∧
      (∀ k, regGet (collect_iostat_metrics input
            ((collect_iostat_metrics input st).2)).2.registry k =
          regGet (collect_iostat_metrics input st).2.registry k) ∧
      (∀ n, n ∈ (collect_iostat_metrics input
            ((collect_iostat_metrics input st).2)).2.meminfo_gauges ↔
          n ∈ (collect_iostat_metrics input st).2.meminfo_gauges)) ∧
    ((collect_meminfo_metrics input ((collect_meminfo_metrics input st).2)).1 =
        (collect_meminfo_metrics input st).1 ∧
      (∀ k, regGet (collect_meminfo_metrics input
            ((collect_meminfo_metrics input st).2)).2.registry k =
          regGet (collect_meminfo_metrics input st).2.registry k) ∧
      (∀ n, n ∈ (collect_meminfo_metrics input
            ((collect_meminfo_metrics input st).2)).2.meminfo_gauges ↔
          n ∈ (collect_meminfo_metrics input st).2.meminfo_gauges)) := by
  cases input with
  | none => exact ⟨⟨rfl, fun _ => rfl, fun _ => Iff.rfl⟩, ⟨rfl, fun _ => rfl, fun _ => Iff.rfl⟩⟩
  | some content =>
    constructor
    · have hio : ∀ s, collect_iostat_metrics (some content) s =
          ((iostatTrace (pySplitlines content)).2,
            applyOps s (iostatTrace (pySplitlines content)).1) := fun s =>
        collect_iostat_lines_eq _ s

      refine ⟨?_, ?_, ?_⟩
      · rw [hio, hio]
      · intro k
        rw [hio, hio]
        exact regGet_applyOps_idem st _ k
      · intro n
        rw [hio, hio]
        exact mem_gauges_applyOps_idem st _ n
    · have hm : ∀ s, collect_meminfo_metrics (some content) s =
          (true, applyOps s (memOps (pyReadlines content))) := fun s =>
        collect_meminfo_metrics_eq _ s
      refine ⟨?_, ?_, ?_⟩
      · rw [hm, hm]
      · intro k
        rw [hm, hm]
        exact regGet_applyOps_idem st _ k
      · intro n
        rw [hm, hm]
        exact mem_gauges_applyOps_idem st _ n

/-- C6: the meminfo metric name is the lowercased key with exactly the
characters outside `[a-z0-9_]` replaced by underscores, letters and digits
preserved; in particular `Hugepagesize[2]` sanitizes to `hugepagesize_2_` and
names the metric `meminfo_hugepagesize_2__bytes`. -/
theorem meminfo_name_sanitization (key : String) :
    ((sanitize_key (pyLower key)).data = key.data.map (fun c =>
        if (Char.toLower c).isLower || (Char.toLower c).isDigit || Char.toLower c == '_' then
          Char.toLower c
        else '_')) ∧
    sanitize_key (pyLower "Hugepagesize[2]") = "hugepagesize_2_" ∧
    meminfo_metric_name "Hugepagesize[2]" = "meminfo_hugepagesize_2__bytes" := by
  refine ⟨?_, by with_unfolding_all rfl, by with_unfolding_all rfl⟩
  simp only [sanitize_key, pyLower, List.map_map]
  apply List.map_congr_left
  intro c _
  simp only [Function.comp_apply, Char.isAlphanum, Char.isAlpha, isUpper_toLower,
    Bool.false_or, Bool.or_assoc]

/-- C7: a memory line without a colon, a CPU data line with fewer than six
fields, and a device line with fewer than four fields each create no metric,
update no metric, and raise no exception (the CPU scan still consumes its
`break`; the device scan just moves to the next line). -/
theorem malformed_lines_no_effect :
    (∀ (st : MetricsState) (line : String), splitFirst ':' line.data = none →
      meminfoLine st line = st) ∧
    (∀ (st : MetricsState) (pre : List String) (uline dline : String) (rest : List String),
      (∀ l ∈ pre, strContains l "%user" = false) →
      strContains uline "%user" = true →
      (pySplit dline).length < 6 →
      cpuLoop st (pre ++ uline :: dline :: rest) = .ok st) ∧
    (∀ (st : MetricsState) (flag : Bool) (dline : String) (rest : List String),
      strContains dline "Device" = false →
      (pySplit dline).length < 4 →
      deviceLoop st flag (dline :: rest) = deviceLoop st flag rest) := by
  refine ⟨?_, ?_, ?_⟩
  · intro st line hsplit
    show applyOps st (memLineOps line) = st
    unfold memLineOps
    rw [hsplit]
    rfl
  · intro st pre uline dline rest hpre hu hshort
    rw [cpuLoop_skip pre _ st hpre]
    simp only [cpuLoop, hu, List.isEmpty_cons, Bool.not_false, Bool.and_true, eq_self_iff_true,
      if_true, List.headD_cons]
    rw [if_neg (not_le.mpr hshort)]
  · intro st flag dline rest hnd hshort
    simp only [deviceLoop, hnd, Bool.false_eq_true, if_false]
    cases hf : (flag && (pyStrip dline != ""))
    · simp
    · rw [if_pos rfl, if_neg (not_le.mpr hshort)]

/-- C7 witness: a colon-free memory line, a two-field CPU data line and a
three-field device line, each leaving the state unchanged. -/
theorem malformed_lines_no_effect_witness :
    meminfoLine initState "NoColonHere" = initState ∧
    cpuLoop initState ["x", "avg %user", "1 2", "y"] = .ok initState ∧
    deviceLoop initState true ["sda 1.0 2.0"] = deviceLoop initState true [] :=
  ⟨malformed_lines_no_effect.1 initState "NoColonHere" (by decide),
   malformed_lines_no_effect.2.1 initState ["x"] "avg %user" "1 2" ["y"]
     (by decide) (by decide) (by decide),
   malformed_lines_no_effect.2.2 initState true "sda 1.0 2.0" []
     (by decide) (by decide)⟩

/-- In a meminfo line list split as `pre ++ l :: post` where `l` parses and no
line of `post` maps to `l`'s metric name, the final registry holds `l`'s
kilobyte value times 1024 under that name, and the gauge is created. -/
theorem meminfo_last_writer_value (st : MetricsState) (pre post : List String) (l : String)
    (kcs vcs run : List Char)
    (hsplit : splitFirst ':' l.data = some (kcs, vcs))
    (hrun : firstDigitRun (pyStrip (String.mk vcs)).data = some run)
    (hpost : ∀ x ∈ post, memLineName x ≠ some (meminfo_metric_name (pyStrip (String.mk kcs)))) :
    regGet (applyOps st (memOps (pre ++ l :: post))).registry
        (meminfo_metric_name (pyStrip (String.mk kcs)), "") =
      some ((digitsToNat run : ℚ) * 1024) ∧
    meminfo_metric_name (pyStrip (String.mk kcs)) ∈
      (applyOps st (memOps (pre ++ l :: post))).meminfo_gauges := by
  have hops := memLineOps_of_parse l kcs vcs run hsplit hrun
  set name := meminfo_metric_name (pyStrip (String.mk kcs)) with hname
  have hsplit2 : memOps (pre ++ l :: post) = memOps pre ++ (memLineOps l ++ memOps post) := by
    rw [memOps_append]
    rfl
  rw [hsplit2, applyOps_append, applyOps_append]
  obtain ⟨hframe, hens⟩ := memOps_frame post name hpost
  constructor
  · rw [regGet_applyOps_frame _ _ _ hframe, hops, regGet_applyOps]
    simp [opsLastVal]
  · rw [mem_gauges_applyOps]
    right
    rw [hops, mem_gauges_applyOps]
    left
    simp [opsEnsures]

/-- C3: a meminfo line with a colon and a digit run in its value part makes
`collect_meminfo_metrics` create (if absent) the gauge named
`meminfo_<sanitized key>_bytes` and set it to the digit run times 1024 —
unconditionally, whatever the key; stated for the last line mapping to that
name (later lines with the same name would overwrite, claim C9). -/
theorem meminfo_line_sets_scaled_gauge (st : MetricsState) (content : String)
    (pre post : List String) (l : String) (kcs vcs run : List Char)
    (hlines : pyReadlines content = pre ++ l :: post)
    (hsplit : splitFirst ':' l.data = some (kcs, vcs))
    (hrun : firstDigitRun (pyStrip (String.mk vcs)).data = some run)
    (hpost : ∀ x ∈ post, memLineName x ≠ some (meminfo_metric_name (pyStrip (String.mk kcs)))) :
    regGet (collect_meminfo_metrics (some content) st).2.registry
        (meminfo_metric_name (pyStrip (String.mk kcs)), "") =
      some ((digitsToNat run : ℚ) * 1024) ∧
    meminfo_metric_name (pyStrip (String.mk kcs)) ∈
      (collect_meminfo_metrics (some content) st).2.meminfo_gauges ∧
    (collect_meminfo_metrics (some content) st).1 = true := by
  rw [collect_meminfo_metrics_eq, hlines]
  obtain ⟨h1, h2⟩ := meminfo_last_writer_value st pre post l kcs vcs run hsplit hrun hpost
  exact ⟨h1, h2, rfl⟩

/-- C3 witness: the spec's example line `MemTotal:       16384 kB` produces
the gauge `meminfo_memtotal_bytes` with value 16384 · 1024 = 16777216. -/
theorem meminfo_line_sets_scaled_gauge_witness :
    regGet (collect_meminfo_metrics (some "MemTotal:       16384 kB\n") initState).2.registry
        ("meminfo_memtotal_bytes", "") = some 16777216 ∧
    "meminfo_memtotal_bytes" ∈
      (collect_meminfo_metrics (some "MemTotal:       16384 kB\n") initState).2.meminfo_gauges := by
  have h := meminfo_line_sets_scaled_gauge initState "MemTotal:       16384 kB\n" [] []
    "MemTotal:       16384 kB\n" ("MemTotal".data) ("       16384 kB\n".data) ("16384".data)
    (by decide) (by decide) (by decide) (by intro x hx; simp at hx)
  have hkey : meminfo_metric_name (pyStrip (String.mk ("MemTotal".data))) =
      "meminfo_memtotal_bytes" := by with_unfolding_all rfl
  have hval : ((digitsToNat ("16384".data) : ℚ) * 1024) = 16777216 := by
    with_unfolding_all rfl
  rw [hkey, hval] at h
  exact ⟨h.1, h.2.1⟩

/-- C9: two meminfo lines whose keys sanitize to the same metric name collapse
to that one name, and after the cycle the metric holds the value of the later
line (stated with no later line mapping to the same name after `l2`). -/
theorem meminfo_duplicate_keys_last_wins (st : MetricsState) (content : String)
    (pre mid post : List String) (l1 l2 : String) (kcs vcs run : List Char)
    (hlines : pyReadlines content = pre ++ l1 :: (mid ++ l2 :: post))
    (hsplit : splitFirst ':' l2.data = some (kcs, vcs))
    (hrun : firstDigitRun (pyStrip (String.mk vcs)).data = some run)
    (hname1 : memLineName l1 = some (meminfo_metric_name (pyStrip (String.mk kcs))))
    (hpost : ∀ x ∈ post, memLineName x ≠ some (meminfo_metric_name (pyStrip (String.mk kcs)))) :
    memLineName l1 = memLineName l2 ∧
    regGet (collect_meminfo_metrics (some content) st).2.registry
        (meminfo_metric_name (pyStrip (String.mk kcs)), "") =
      some ((digitsToNat run : ℚ) * 1024) := by
  constructor
  · rw [hname1, memLineName_of_parse l2 kcs vcs run hsplit hrun]
  · have hassoc : pre ++ l1 :: (mid ++ l2 :: post) = (pre ++ l1 :: mid) ++ l2 :: post := by
      simp
    rw [collect_meminfo_metrics_eq, hlines, hassoc]
    exact (meminfo_last_writer_value st (pre ++ l1 :: mid) post l2 kcs vcs run
      hsplit hrun hpost).1

/-- C9 witness: two `MemTotal` lines; both map to `meminfo_memtotal_bytes`,
and the final value is the second line's 2 · 1024 = 2048, not the first
line's 1024. -/
theorem meminfo_duplicate_keys_last_wins_witness :
    memLineName "MemTotal: 1 kB\n" = memLineName "MemTotal: 2 kB\n" ∧
    regGet (collect_meminfo_metrics (some "MemTotal: 1 kB\nMemTotal: 2 kB\n")
        initState).2.registry ("meminfo_memtotal_bytes", "") = some 2048 := by
  have h := meminfo_duplicate_keys_last_wins initState "MemTotal: 1 kB\nMemTotal: 2 kB\n"
    [] [] [] "MemTotal: 1 kB\n" "MemTotal: 2 kB\n" ("MemTotal".data) (" 2 kB\n".data) (['2'])
    (by decide) (by decide) (by decide) (by decide) (by intro x hx; simp at hx)
  have hkey : meminfo_metric_name (pyStrip (String.mk ("MemTotal".data))) =
      "meminfo_memtotal_bytes" := by with_unfolding_all rfl
  have hval : ((digitsToNat (['2']) : ℚ) * 1024) = 2048 := by with_unfolding_all rfl
  rw [hkey, hval] at h
  exact h

theorem cpuTrace_no_user (lines : List String) :
    (∀ l ∈ lines, strContains l "%user" = false) → cpuTrace lines = ([], true) := by
  induction lines with
  | nil => intro _; rfl
  | cons l t ih =>
    intro h
    have hl := h l (List.mem_cons_self _ _)
    simp only [cpuTrace, hl, Bool.false_and, Bool.false_eq_true, if_false]
    exact ih (fun x hx => h x (List.mem_cons_of_mem _ hx))

/-- C8: when no line of the iostat output contains `%user`, the whole cycle
leaves every `cpu_avg_percent` mode value unchanged; when no line contains
`Device`, it leaves every per-device io gauge unchanged (stale values
persist). -/
theorem missing_headers_leave_metrics_stale (out : String) (st : MetricsState) :
    ((∀ l ∈ pySplitlines out, strContains l "%user" = false) →
      ∀ mode, regGet (collect_iostat_metrics (some out) st).2.registry
          ("cpu_avg_percent", mode) =
        regGet st.registry ("cpu_avg_percent", mode)) ∧
    ((∀ l ∈ pySplitlines out, strContains l "Device" = false) →
      ∀ name dev, name ∈ ioNames →
        regGet (collect_iostat_metrics (some out) st).2.registry (name, dev) =
          regGet st.registry (name, dev)) := by
  constructor
  · intro h mode
    show regGet (collect_iostat_lines (pySplitlines out) st).2.registry _ = _
    rw [collect_iostat_lines_eq]
    apply regGet_applyOps_frame
    intro op hop v heq
    have hcpu := cpuTrace_no_user _ h
    simp only [iostatTrace, hcpu, if_true, List.nil_append] at hop
    obtain ⟨n, d, w, hop', hn⟩ := devTrace_keys _ false op hop
    have hcomb := hop'.symm.trans heq
    simp only [RegOp.set.injEq, Prod.mk.injEq] at hcomb
    obtain ⟨⟨hn1, _⟩, _⟩ := hcomb
    subst hn1
    exact (by decide : "cpu_avg_percent" ∉ ioNames) hn
  · intro h name dev hmem
    show regGet (collect_iostat_lines (pySplitlines out) st).2.registry _ = _
    rw [collect_iostat_lines_eq]
    apply regGet_applyOps_frame
    intro op hop v heq
    have hdev := devTrace_no_device _ h
    have hname : name ≠ "cpu_avg_percent" := by
      intro hh
      exact (by decide : "cpu_avg_percent" ∉ ioNames) (hh ▸ hmem)
    have hop2 : op ∈ (cpuTrace (pySplitlines out)).1 := by
      simp only [iostatTrace, hdev] at hop
      cases hctb : (cpuTrace (pySplitlines out)).2 <;>
        simp only [hctb, if_true, if_false, Bool.false_eq_true, List.append_nil] at hop <;>
        exact hop
    obtain ⟨m, w, hop'⟩ := cpuTrace_keys _ op hop2
    have hcomb := hop'.symm.trans heq
    simp only [RegOp.set.injEq, Prod.mk.injEq] at hcomb
    exact hname hcomb.1.1.symm

/-- C8 witness: an output with neither header leaves previously set cpu and
device gauge values untouched. -/
theorem missing_headers_leave_metrics_stale_witness :
    regGet (collect_iostat_metrics (some "hello\nworld")
        ⟨[(("cpu_avg_percent", "user"), 7), (("io_tps", "sda"), 3)], []⟩).2.registry
      ("cpu_avg_percent", "user") = some 7 ∧
    regGet (collect_iostat_metrics (some "hello\nworld")
        ⟨[(("cpu_avg_percent", "user"), 7), (("io_tps", "sda"), 3)], []⟩).2.registry
      ("io_tps", "sda") = some 3 := by
  have h := missing_headers_leave_metrics_stale "hello\nworld"
    ⟨[(("cpu_avg_percent", "user"), 7), (("io_tps", "sda"), 3)], []⟩
  constructor
  · rw [h.1 (by decide) "user"]
    decide
  · rw [h.2 (by decide) "io_tps" "sda" (by decide)]
    decide

/-- C1 (counterexample): an output in which some line (`c %user d`) contains
`%user` and is followed by six numeric fields, yet the cycle sets no
`cpu_avg_percent` gauge: the scan acts on the FIRST `%user` line only, whose
follower (`short`) has fewer than six fields, and then breaks. -/
theorem cpu_user_block_claim_cex :
    pySplitlines "a %user b\nshort\nc %user d\n1.0 2.0 3.0 4.0 5.0 6.0" =
      ["a %user b", "short", "c %user d", "1.0 2.0 3.0 4.0 5.0 6.0"] ∧
    strContains "c %user d" "%user" = true ∧
    6 ≤ (pySplit "1.0 2.0 3.0 4.0 5.0 6.0").length ∧
    parsePyFloat ((pySplit "1.0 2.0 3.0 4.0 5.0 6.0").getD 0 "") = some 1 ∧
    parsePyFloat ((pySplit "1.0 2.0 3.0 4.0 5.0 6.0").getD 5 "") = some 6 ∧
    collect_iostat_metrics (some "a %user b\nshort\nc %user d\n1.0 2.0 3.0 4.0 5.0 6.0")
        initState = (true, initState) ∧
    regGet (collect_iostat_metrics
        (some "a %user b\nshort\nc %user d\n1.0 2.0 3.0 4.0 5.0 6.0") initState).2.registry
      ("cpu_avg_percent", "user") = none := by
  refine ⟨by decide, by decide, by decide, ?_, ?_, ?_, ?_⟩
  · with_unfolding_all rfl
  · with_unfolding_all rfl
  · with_unfolding_all rfl
  · with_unfolding_all rfl

theorem cpuFieldOps_full (vals : List String) (v0 v1 v2 v3 v4 v5 : ℚ)
    (hp0 : parsePyFloat (vals.getD 0 "") = some v0)
    (hp1 : parsePyFloat (vals.getD 1 "") = some v1)
    (hp2 : parsePyFloat (vals.getD 2 "") = some v2)
    (hp3 : parsePyFloat (vals.getD 3 "") = some v3)
    (hp4 : parsePyFloat (vals.getD 4 "") = some v4)
    (hp5 : parsePyFloat (vals.getD 5 "") = some v5) :
    cpuFieldOps vals cpuFieldList =
      ([.set ("cpu_avg_percent", "user") v0, .set ("cpu_avg_percent", "nice") v1,
        .set ("cpu_avg_percent", "system") v2, .set ("cpu_avg_percent", "iowait") v3,
        .set ("cpu_avg_percent", "steal") v4, .set ("cpu_avg_percent", "idle") v5], true) := by
  simp only [cpuFieldList, cpuFieldOps, hp0, hp1, hp2, hp3, hp4, hp5]

/-- C1 (amended): for the FIRST line containing `%user` that has a following
line, if that following line splits into at least six fields whose first six
parse as floats, the six `cpu_avg_percent` gauges hold fields 1–6 in the fixed
order user, nice, system, iowait, steal, idle at the end of the cycle. -/
theorem cpu_first_user_block_sets_modes (out : String) (st : MetricsState)
    (pre : List String) (uline dline : String) (rest : List String)
    (v0 v1 v2 v3 v4 v5 : ℚ)
    (hlines : pySplitlines out = pre ++ uline :: dline :: rest)
    (hpre : ∀ l ∈ pre, strContains l "%user" = false)
    (hu : strContains uline "%user" = true)
    (h6 : 6 ≤ (pySplit dline).length)
    (hp0 : parsePyFloat ((pySplit dline).getD 0 "") = some v0)
    (hp1 : parsePyFloat ((pySplit dline).getD 1 "") = some v1)
    (hp2 : parsePyFloat ((pySplit dline).getD 2 "") = some v2)
    (hp3 : parsePyFloat ((pySplit dline).getD 3 "") = some v3)
    (hp4 : parsePyFloat ((pySplit dline).getD 4 "") = some v4)
    (hp5 : parsePyFloat ((pySplit dline).getD 5 "") = some v5) :
    regGet (collect_iostat_metrics (some out) st).2.registry ("cpu_avg_percent", "user") =
        some v0 ∧
    regGet (collect_iostat_metrics (some out) st).2.registry ("cpu_avg_percent", "nice") =
        some v1 ∧
    regGet (collect_iostat_metrics (some out) st).2.registry ("cpu_avg_percent", "system") =
        some v2 ∧
    regGet (collect_iostat_metrics (some out) st).2.registry ("cpu_avg_percent", "iowait") =
        some v3 ∧
    regGet (collect_iostat_metrics (some out) st).2.registry ("cpu_avg_percent", "steal") =
        some v4 ∧
    regGet (collect_iostat_metrics (some out) st).2.registry ("cpu_avg_percent", "idle") =
        some v5 := by
  have hcl : cpuLoop st (pySplitlines out) =
      .ok (applyOps st
        [.set ("cpu_avg_percent", "user") v0, .set ("cpu_avg_percent", "nice") v1,
         .set ("cpu_avg_percent", "system") v2, .set ("cpu_avg_percent", "iowait") v3,
         .set ("cpu_avg_percent", "steal") v4, .set ("cpu_avg_percent", "idle") v5]) := by
    rw [hlines, cpuLoop_skip pre _ st hpre]
    simp only [cpuLoop, hu, List.isEmpty_cons, Bool.not_false, Bool.and_true, eq_self_iff_true,
      if_true, List.headD_cons]
    rw [if_pos h6, setCpuFields_eq, cpuFieldOps_full _ _ _ _ _ _ _ hp0 hp1 hp2 hp3 hp4 hp5]
    rfl
  have hstate : ∀ mode, regGet (collect_iostat_metrics (some out) st).2.registry
      ("cpu_avg_percent", mode) =
      regGet (applyOps st
        [.set ("cpu_avg_percent", "user") v0, .set ("cpu_avg_percent", "nice") v1,
         .set ("cpu_avg_percent", "system") v2, .set ("cpu_avg_percent", "iowait") v3,
         .set ("cpu_avg_percent", "steal") v4, .set ("cpu_avg_percent", "idle") v5]).registry
        ("cpu_avg_percent", mode) := by
    intro mode
    show regGet (collect_iostat_lines (pySplitlines out) st).2.registry _ = _
    unfold collect_iostat_lines
    rw [hcl]
    dsimp only
    rw [deviceLoop_eq]
    cases hdb : (devTrace false (pySplitlines out)).2 <;>
      simp only [hdb, if_true, if_false, Bool.false_eq_true] <;>
      · apply regGet_applyOps_frame
        intro op hop v heq
        obtain ⟨n, d, w, hop', hn⟩ := devTrace_keys _ false op hop
        have hcomb := hop'.symm.trans heq
        simp only [RegOp.set.injEq, Prod.mk.injEq] at hcomb
        obtain ⟨⟨hn1, _⟩, _⟩ := hcomb
        subst hn1
        exact (by decide : "cpu_avg_percent" ∉ ioNames) hn
  refine ⟨?_, ?_, ?_, ?_, ?_, ?_⟩ <;>
    · rw [hstate, regGet_applyOps]
      simp [opsLastVal]

/-- C1 witness: a well-formed CPU block whose first `%user` line is followed
by six parsable fields 1.0 … 6.0, yielding the six mode values 1 … 6. -/
theorem cpu_first_user_block_sets_modes_witness :
    regGet (collect_iostat_metrics (some "avg-cpu:  %user %nice\n1.0 2.0 3.0 4.0 5.0 6.0")
        initState).2.registry ("cpu_avg_percent", "user") = some 1 ∧
    regGet (collect_iostat_metrics (some "avg-cpu:  %user %nice\n1.0 2.0 3.0 4.0 5.0 6.0")
        initState).2.registry ("cpu_avg_percent", "idle") = some 6 := by
  have h := cpu_first_user_block_sets_modes
    "avg-cpu:  %user %nice\n1.0 2.0 3.0 4.0 5.0 6.0" initState
    [] "avg-cpu:  %user %nice" "1.0 2.0 3.0 4.0 5.0 6.0" [] 1 2 3 4 5 6
    (by decide) (by intro x hx; simp at hx) (by decide) (by decide)
    (by with_unfolding_all rfl) (by with_unfolding_all rfl) (by with_unfolding_all rfl)
    (by with_unfolding_all rfl) (by with_unfolding_all rfl) (by with_unfolding_all rfl)
  exact ⟨h.1, h.2.2.2.2.2⟩

/-- C2 (counterexample): the line `sda 5.0 100.0 200.0` has four fields and
appears after a `Device` line, yet none of its gauges is set: an earlier
device record (`sdb x 1 2`) fails `float()`, the exception aborts the scan
before reaching it, and the sampler returns `False`. -/
theorem device_record_claim_cex :
    pySplitlines "Device: hdr\nsdb x 1 2\nsda 5.0 100.0 200.0" =
      ["Device: hdr", "sdb x 1 2", "sda 5.0 100.0 200.0"] ∧
    strContains "Device: hdr" "Device" = true ∧
    4 ≤ (pySplit "sda 5.0 100.0 200.0").length ∧
    collect_iostat_metrics (some "Device: hdr\nsdb x 1 2\nsda 5.0 100.0 200.0") initState =
      (false, initState) ∧
    regGet (collect_iostat_metrics (some "Device: hdr\nsdb x 1 2\nsda 5.0 100.0 200.0")
        initState).2.registry ("io_tps", "sda") = none := by
  refine ⟨by decide, by decide, by decide, ?_, ?_⟩
  · with_unfolding_all rfl
  · with_unfolding_all rfl

/-- C2 (amended): the LAST device record line, when its fields 2–4 parse as
floats and every earlier device record parsed as well, sets the five gauges
for its device label: tps from field 2, the KB/s rates from fields 3 and 4,
and the byte rates as those rates times 1024. -/
theorem device_record_sets_gauges (out : String) (st st1 st2 : MetricsState)
    (pre : List String) (dline : String) (tps kbr kbw : ℚ)
    (hlines : pySplitlines out = pre ++ [dline])
    (hcpu : cpuLoop st (pre ++ [dline]) = .ok st1)
    (hdev : deviceLoop st1 false pre = .ok (st2, true))
    (hnd : strContains dline "Device" = false)
    (hne : (pyStrip dline != "") = true)
    (h4 : 4 ≤ (pySplit dline).length)
    (hp1 : parsePyFloat ((pySplit dline).getD 1 "") = some tps)
    (hp2 : parsePyFloat ((pySplit dline).getD 2 "") = some kbr)
    (hp3 : parsePyFloat ((pySplit dline).getD 3 "") = some kbw) :
    (collect_iostat_metrics (some out) st).1 = true ∧
    regGet (collect_iostat_metrics (some out) st).2.registry
        ("io_tps", (pySplit dline).getD 0 "") = some tps ∧
    regGet (collect_iostat_metrics (some out) st).2.registry
        ("io_read_rate", (pySplit dline).getD 0 "") = some kbr ∧
    regGet (collect_iostat_metrics (some out) st).2.registry
        ("io_write_rate", (pySplit dline).getD 0 "") = some kbw ∧
    regGet (collect_iostat_metrics (some out) st).2.registry
        ("io_read_bytes", (pySplit dline).getD 0 "") = some (kbr * 1024) ∧
    regGet (collect_iostat_metrics (some out) st).2.registry
        ("io_write_bytes", (pySplit dline).getD 0 "") = some (kbw * 1024) := by
  have hrun : collect_iostat_metrics (some out) st =
      (true, setDevice st2 ((pySplit dline).getD 0 "") tps kbr kbw) := by
    show collect_iostat_lines (pySplitlines out) st = _
    rw [hlines]
    unfold collect_iostat_lines
    rw [hcpu]
    dsimp only
    rw [deviceLoop_append, hdev]
    dsimp only
    simp only [deviceLoop, hnd, Bool.false_eq_true, if_false, Bool.true_and, hne,
      eq_self_iff_true, if_true]
    rw [if_pos h4, hp1]
    dsimp only
    rw [hp2]
    dsimp only
    rw [hp3]
  rw [hrun]
  refine ⟨rfl, ?_, ?_, ?_, ?_, ?_⟩ <;>
    · show regGet (applyOps st2 (deviceOpList _ _ _ _)).registry _ = _
      rw [regGet_applyOps]
      simp [deviceOpList, opsLastVal]

/-- C2 witness: the spec's example record `sda 5.0 100.0 200.0` yields
tps = 5, read rate = 100, write rate = 200, read bytes = 102400 and write
bytes = 204800. -/
theorem device_record_sets_gauges_witness :
    (collect_iostat_metrics (some "Device: hdr\nsda 5.0 100.0 200.0") initState).1 = true ∧
    regGet (collect_iostat_metrics (some "Device: hdr\nsda 5.0 100.0 200.0")
        initState).2.registry ("io_tps", "sda") = some 5 ∧
    regGet (collect_iostat_metrics (some "Device: hdr\nsda 5.0 100.0 200.0")
        initState).2.registry ("io_read_rate", "sda") = some 100 ∧
    regGet (collect_iostat_metrics (some "Device: hdr\nsda 5.0 100.0 200.0")
        initState).2.registry ("io_write_rate", "sda") = some 200 ∧
    regGet (collect_iostat_metrics (some "Device: hdr\nsda 5.0 100.0 200.0")
        initState).2.registry ("io_read_bytes", "sda") = some 102400 ∧
    regGet (collect_iostat_metrics (some "Device: hdr\nsda 5.0 100.0 200.0")
        initState).2.registry ("io_write_bytes", "sda") = some 204800 := by
  have h := device_record_sets_gauges "Device: hdr\nsda 5.0 100.0 200.0"
    initState initState initState ["Device: hdr"] "sda 5.0 100.0 200.0" 5 100 200
    (by decide) (by with_unfolding_all rfl) (by with_unfolding_all rfl)
    (by decide) (by decide) (by decide)
    (by with_unfolding_all rfl) (by with_unfolding_all rfl) (by with_unfolding_all rfl)
  have hdev0 : (pySplit "sda 5.0 100.0 200.0").getD 0 "" = "sda" := by decide
  have hv1 : ((100 : ℚ) * 1024) = 102400 := by norm_num
  have hv2 : ((200 : ℚ) * 1024) = 204800 := by norm_num
  rw [hdev0, hv1, hv2] at h
  exact h

theorem parsePyFloat_eq_none_of_not_accepts (s : String) :
    pyFloatAccepts s = false → parsePyFloat s = none := by
  intro h
  unfold pyFloatAccepts at h
  cases hp : parsePyFloat s with
  | none => rfl
  | some v =>
    rw [hp] at h
    simp at h

/-- C10: a device record whose field 2, 3 or 4 is rejected by `float()`
(`pyFloatAccepts` false: not a finite numeral, not `inf`/`nan`) makes the
sampler return `False` with the state exactly as it was when the exception
was raised: devices before the bad line keep this cycle's values, the bad
line and everything after it set nothing. -/
theorem device_parse_failure_aborts (out : String) (st st1 st2 : MetricsState)
    (pre post : List String) (bad : String)
    (hlines : pySplitlines out = pre ++ bad :: post)
    (hcpu : cpuLoop st (pre ++ bad :: post) = .ok st1)
    (hdev : deviceLoop st1 false pre = .ok (st2, true))
    (hnb : strContains bad "Device" = false)
    (hne : (pyStrip bad != "") = true)
    (h4 : 4 ≤ (pySplit bad).length)
    (hbad : pyFloatAccepts ((pySplit bad).getD 1 "") = false ∨
      (∃ t, parsePyFloat ((pySplit bad).getD 1 "") = some t ∧
        pyFloatAccepts ((pySplit bad).getD 2 "") = false) ∨
      (∃ t r, parsePyFloat ((pySplit bad).getD 1 "") = some t ∧
        parsePyFloat ((pySplit bad).getD 2 "") = some r ∧
        pyFloatAccepts ((pySplit bad).getD 3 "") = false)) :
    collect_iostat_metrics (some out) st = (false, st2) := by
  show collect_iostat_lines (pySplitlines out) st = _
  rw [hlines]
  unfold collect_iostat_lines
  rw [hcpu]
  dsimp only
  rw [deviceLoop_append, hdev]
  dsimp only
  simp only [deviceLoop, hnb, Bool.false_eq_true, if_false, Bool.true_and, hne,
    eq_self_iff_true, if_true]
  rw [if_pos h4]
  rcases hbad with h1 | ⟨t, h1, h2⟩ | ⟨t, r, h1, h2, h3⟩
  · rw [parsePyFloat_eq_none_of_not_accepts _ h1]
  · rw [h1]
    dsimp only
    rw [parsePyFloat_eq_none_of_not_accepts _ h2]
  · rw [h1]
    dsimp only
    rw [h2]
    dsimp only
    rw [parsePyFloat_eq_none_of_not_accepts _ h3]

/-- C10 witness: `sdb x 2 3` fails on field 2 (`float("x")` raises); `sda`
(before it) keeps its values from this cycle, `sdc` (after it) is never
processed, and the call returns `False`. -/
theorem device_parse_failure_aborts_witness :
    collect_iostat_metrics (some "Device: hdr\nsda 1.0 2.0 3.0\nsdb x 2 3\nsdc 7 8 9")
        initState =
      (false, ⟨[(("io_tps", "sda"), 1), (("io_read_rate", "sda"), 2),
        (("io_write_rate", "sda"), 3), (("io_read_bytes", "sda"), 2048),
        (("io_write_bytes", "sda"), 3072)], []⟩) ∧
    regGet (collect_iostat_metrics
        (some "Device: hdr\nsda 1.0 2.0 3.0\nsdb x 2 3\nsdc 7 8 9") initState).2.registry
      ("io_tps", "sdc") = none ∧
    regGet (collect_iostat_metrics
        (some "Device: hdr\nsda 1.0 2.0 3.0\nsdb x 2 3\nsdc 7 8 9") initState).2.registry
      ("io_tps", "sda") = some 1 := by
  have h := device_parse_failure_aborts "Device: hdr\nsda 1.0 2.0 3.0\nsdb x 2 3\nsdc 7 8 9"
    initState initState
    ⟨[(("io_tps", "sda"), 1), (("io_read_rate", "sda"), 2),
      (("io_write_rate", "sda"), 3), (("io_read_bytes", "sda"), 2048),
      (("io_write_bytes", "sda"), 3072)], []⟩
    ["Device: hdr", "sda 1.0 2.0 3.0"] ["sdc 7 8 9"] "sdb x 2 3"
    (by decide) (by with_unfolding_all rfl) (by with_unfolding_all rfl)
    (by decide) (by decide) (by decide)
    (Or.inl (by with_unfolding_all rfl))
  refine ⟨h, ?_, ?_⟩ <;> rw [h] <;> decide

end Task12
